import Mathlib

/-!
Verification development for the `mma_matrix_web` data-sourcing pipeline
(`src/data_sourcing/main.py`).

The Python module is shallowly embedded below.  External effects are made
explicit: the fetched HTML pages become structured inputs (tables, rows,
anchors, cell texts are what BeautifulSoup extracts from them), the on-disk
locator cache becomes a list argument and a list result, network `sleep`
calls become a recorded list of delays, and raised Python exceptions become
`Except` errors.  Each definition mirrors one function (or one loop) of the
source file; comments give the corresponding source lines.
-/

namespace MmaWeb

/-! ### Python string primitives

`pyStrip` models `str.strip()` (ASCII whitespace), `containsSub` models the
Python substring test `needle in hay`, `pyStartsWith` models
`str.startswith`, and `pyInt` models `int(s)` on a decimal literal with an
optional sign (returning `none` where Python raises `ValueError`).
-/

def isSpaceChar (c : Char) : Bool :=
  c.toNat = 32 || c.toNat = 9 || c.toNat = 10 || c.toNat = 13 || c.toNat = 11 || c.toNat = 12

def isDigitChar (c : Char) : Bool :=
  48 ≤ c.toNat && c.toNat ≤ 57

def pyStrip (s : String) : String :=
  String.mk (((s.toList.dropWhile isSpaceChar).reverse.dropWhile isSpaceChar).reverse)

def startsWithChars : List Char → List Char → Bool
  | [], _ => true
  | _ :: _, [] => false
  | p :: ps, c :: cs => p == c && startsWithChars ps cs

def pyStartsWith (s pre : String) : Bool :=
  startsWithChars pre.toList s.toList

def containsSub (needle hay : String) : Bool :=
  hay.toList.tails.any (fun t => startsWithChars needle.toList t)

def digitsVal (ds : List Char) : Nat :=
  ds.foldl (fun acc c => acc * 10 + (c.toNat - 48)) 0

/-- Maximal leading run of decimal digits, and the remainder (models the
greedy `\d+` of a regular expression). -/
def digitSpan : List Char → List Char × List Char
  | [] => ([], [])
  | c :: cs =>
    if isDigitChar c then
      let p := digitSpan cs
      (c :: p.1, p.2)
    else ([], c :: cs)

def allDigits1 (cs : List Char) : Bool :=
  !cs.isEmpty && cs.all isDigitChar

def pyInt (s : String) : Option Int :=
  match (pyStrip s).toList with
  | '-' :: rest => if allDigits1 rest then some (-(digitsVal rest : Int)) else none
  | '+' :: rest => if allDigits1 rest then some ((digitsVal rest : Int)) else none
  | cs => if allDigits1 cs then some ((digitsVal cs : Int)) else none

/-- Models `str.replace('#', '')`: drop every `#`. -/
def removeHashes (s : String) : String :=
  String.mk (s.toList.filter (fun c => c ≠ '#'))

/-! ### `FightResult` (main.py lines 39-46) -/

inductive FightResult where
  | WIN | LOSS | DRAW | NO_CONTEST | SCHEDULED | CANCELLED
  deriving DecidableEq, Repr

def FightResult.value : FightResult → String
  | .WIN => "W"
  | .LOSS => "L"
  | .DRAW => "D"
  | .NO_CONTEST => "NC"
  | .SCHEDULED => "S"
  | .CANCELLED => "C"

def allFightResultValues : List String :=
  [FightResult.WIN.value, FightResult.LOSS.value, FightResult.DRAW.value,
   FightResult.NO_CONTEST.value, FightResult.SCHEDULED.value, FightResult.CANCELLED.value]

/-! ### `retry_with_backoff` (main.py lines 55-95)

The operation under retry is modelled as `f : Nat → Except ε α`: attempt `i`
(0-based) either returns a value or raises a retryable network error (the
`except` clause of the source catches exactly the retryable
`requests` exception classes).  The embedding additionally reports how many
times `f` was invoked and the argument of every `sleep` call, which in the
source are side effects of the loop.
-/

inductive RetryError (ε : Type) where
  | exhausted (cause : ε)   -- the bare `raise` re-raising the last exception
  | unexpected              -- `Exception("Retry function failed unexpectedly")`

structure RetryResult (ε α : Type) where
  result : Except (RetryError ε) α
  calls : Nat
  sleeps : List ℚ

/-- main.py lines 92-95: the fall-through after the loop (only reachable
when `max_retries = 0`): re-raise the last exception, or the generic
`Exception("Retry function failed unexpectedly")`. -/
def raiseLast {ε α : Type} : Option ε → RetryResult ε α
  | some e => ⟨.error (.exhausted e), 0, []⟩
  | none => ⟨.error .unexpected, 0, []⟩

/-- The `for attempt in range(max_retries)` loop, from iteration `attempt`
onwards.  `fuel` is a structural-recursion bound only: every call below
passes `fuel ≥ max_retries - attempt`, so its zero branch is never taken
(the loop itself always terminates because `attempt` grows). -/
def retryGo {ε α : Type} (f : Nat → Except ε α) (max_retries : Nat) :
    Nat → Nat → ℚ → Option ε → RetryResult ε α
  | fuel, attempt, delay, last_exception =>
    if attempt < max_retries then
      match f attempt with
      | .ok v => ⟨.ok v, 1, []⟩
      | .error e =>
        -- attempt_num = attempt + 1; `if attempt_num >= max_retries: raise`
        if max_retries ≤ attempt + 1 then
          ⟨.error (.exhausted e), 1, []⟩
        else
          match fuel with
          | 0 => ⟨.error .unexpected, 0, []⟩   -- out of fuel: unreachable
          | fuel' + 1 =>
            -- `sleep(delay); delay *= 2` and the next loop iteration
            let r := retryGo f max_retries fuel' (attempt + 1) (delay * 2) (some e)
            ⟨r.result, r.calls + 1, delay :: r.sleeps⟩
    else
      raiseLast last_exception

/-- main.py lines 55-95: Python defaults are `max_retries=5`,
`initial_delay=1.0`; callers in this file pass them explicitly. -/
def retry_with_backoff {ε α : Type} (f : Nat → Except ε α) (max_retries : Nat)
    (initial_delay : ℚ) : RetryResult ε α :=
  retryGo f max_retries max_retries 0 initial_delay none

/-! ### Errors raised by the scraping functions

One constructor per `raise` site of the source (Python exception class and
message noted at each site); the constructor names follow the spec's error
taxonomy where the spec names the failure.
-/

inductive ScrapeError where
  /-- rankings: `ValueError` with the given message (division header,
  champion div, fighter div, rank string; main.py lines 125/139/163/170) -/
  | malformedPage (msg : String)
  /-- `int(...)` raising `ValueError` on a non-numeric rank string -/
  | intParseError (text : String)
  /-- bout rows: `ValueError` with the given message (result badge / date
  div / date spans; main.py lines 374/395/398) -/
  | malformedBoutRow (msg : String)
  /-- `pd.to_datetime(..., format="%b %d %Y")` failing to parse -/
  | dateParseError (text : String)
  /-- `ValueError(f"No opponent URLs found for fighter {name}")` (line 415) -/
  | noTrackedOpponentsFound (fighter_name : String)
  /-- `Exception("Could not find search results table")` (line 265) -/
  | searchTableMissing
  /-- `Exception(f"No fighter results found for '{name}'")` (line 281) -/
  | noSearchResults (fighter_name : String)
  /-- `Exception("Could not extract URL from first search result")` (line 289) -/
  | emptyResultHref
  /-- `urljoin(tapology_url, nan)` raising
  `TypeError("Cannot mix str and non-str arguments")` (line 316) -/
  | typeErrorMixedStr
  /-- indexing `fight_date` on the empty `DataFrame` (line 463) -/
  | keyErrorFightDate
  /-- `ValueError(f"Missing reverse bout entry for '{p}' vs '{o}'")` (line 497) -/
  | reciprocityViolation (principal opponent : String)
  deriving DecidableEq, Repr

/-! ### Rank-movement parsing (main.py lines 174-188)

`re.search(r'Rank (increased|decreased) by (\d+)', text)`: scan for the
leftmost position where the pattern matches; the digit group is greedy.
-/

def incPattern : List Char := "Rank increased by ".toList
def decPattern : List Char := "Rank decreased by ".toList

def movementMatchAt (cs : List Char) : Option Int :=
  if startsWithChars incPattern cs then
    let ds := (digitSpan (cs.drop incPattern.length)).1
    if ds.isEmpty then none else some ((digitsVal ds : Int))
  else if startsWithChars decPattern cs then
    let ds := (digitSpan (cs.drop decPattern.length)).1
    if ds.isEmpty then none else some (-(digitsVal ds : Int))
  else none

def movementSearch : List Char → Option Int
  | [] => none
  | c :: rest =>
    match movementMatchAt (c :: rest) with
    | some v => some v
    | none => movementSearch rest

/-- Lines 178-188: `movement_div` absent, or its (stripped) text matching
nowhere, gives movement `0`; a match gives the signed integer. -/
def parseMovementCell : Option String → Int
  | none => 0
  | some txt =>
    match movementSearch (pyStrip txt).toList with
    | some v => v
    | none => 0

/-- Specification-side predicate (independent of the scanner above): the
stripped text contains, at some position, the literal words
`Rank increased by ` or `Rank decreased by ` followed by at least one
digit. -/
def movementPatternAt (cs : List Char) : Bool :=
  (startsWithChars incPattern cs && ((cs.drop incPattern.length).head?.elim false isDigitChar))
  || (startsWithChars decPattern cs && ((cs.drop decPattern.length).head?.elim false isDigitChar))

def anyPatternPos : List Char → Bool
  | [] => false
  | c :: rest => movementPatternAt (c :: rest) || anyPatternPos rest

def containsMovementPattern (s : String) : Bool :=
  anyPatternPos (pyStrip s).toList

/-! ### `scrape_ufc_rankings` (main.py lines 99-201)

The fetched rankings page is modelled by what the function reads from it:
the list of `<table>` elements, each with its optional `<h4>` division
header text, optional `<h5>` champion text, and its `<tr>` rows, each row
with the optional texts of the three `<td>` cells the code looks up by
class.  `none` models `find` returning `None`.
-/

structure RankRow where
  /-- text of `td.views-field-title` -/
  name_cell : Option String
  /-- text of `td.views-field-weight-class-rank` -/
  rank_cell : Option String
  /-- text of `td.views-field-weight-class-rank-change` -/
  movement_cell : Option String
  deriving DecidableEq, Repr

structure RankTable where
  /-- text of the table's `<h4>` -/
  division_header : Option String
  /-- text of the table's `<h5>` -/
  champion_heading : Option String
  rows : List RankRow
  deriving DecidableEq, Repr

structure RankingRecord where
  division : String
  fighter_name : String
  rank : Int
  movement : Int
  deriving DecidableEq, Repr

/-- Lines 131: both pound-for-pound tables are skipped. -/
def isPoundForPound (division_name : String) : Bool :=
  pyStartsWith division_name "Men\x27s Pound-for-Pound"
    || pyStartsWith division_name "Women\x27s Pound-for-Pound"

/-- Lines 155-199: one iteration of the `for fighter_row in fighter_rows`
loop. -/
def processFighterRow (division : String) (row : RankRow) : Except ScrapeError RankingRecord :=
  match row.name_cell with
  | none => .error (.malformedPage "Could not find fighter div in row.")
  | some nameTxt =>
    match row.rank_cell with
    | none => .error (.malformedPage "Could not find rank string in row.")
    | some rankTxt =>
      -- `int(rank_string.text.strip().replace('#', ''))`
      match pyInt (removeHashes (pyStrip rankTxt)) with
      | none => .error (.intParseError rankTxt)
      | some rank =>
        .ok { division := division, fighter_name := pyStrip nameTxt, rank := rank,
              movement := parseMovementCell row.movement_cell }

def tableRowsLoop (division : String) : List RankRow → Except ScrapeError (List RankingRecord)
  | [] => .ok []
  | row :: rest => do
    let r ← processFighterRow division row
    let rs ← tableRowsLoop division rest
    pure (r :: rs)

/-- Lines 114-199: one iteration of the `for table in tables` loop; a
skipped pound-for-pound table contributes no records. -/
def processTable (t : RankTable) : Except ScrapeError (List RankingRecord) :=
  match t.division_header with
  | none => .error (.malformedPage "Could not find division header for table.")
  | some hdr =>
    let division_name := pyStrip hdr
    if isPoundForPound division_name then
      .ok []
    else
      match t.champion_heading with
      | none => .error (.malformedPage "Could not find champion div for table.")
      | some champTxt => do
        let championRecord : RankingRecord :=
          { division := division_name, fighter_name := pyStrip champTxt, rank := 0, movement := 0 }
        let rest ← tableRowsLoop division_name t.rows
        pure (championRecord :: rest)

def scrapeTablesLoop : List RankTable → Except ScrapeError (List RankingRecord)
  | [] => .ok []
  | t :: ts => do
    let rs ← processTable t
    let rest ← scrapeTablesLoop ts
    pure (rs ++ rest)

def scrape_ufc_rankings (tables : List RankTable) : Except ScrapeError (List RankingRecord) :=
  scrapeTablesLoop tables

/-! ### Date parsing (main.py lines 381-398)

`pd.to_datetime(f"{month_day} {year}", format="%b %d %Y").date()`:
an abbreviated month name, a day number and a year, separated by
whitespace.  `none` models the `ValueError` pandas raises on mismatch.
-/

structure PyDate where
  year : Nat
  month : Nat
  day : Nat
  deriving DecidableEq, Repr

def monthAbbrevs : List (String × Nat) :=
  [("Jan", 1), ("Feb", 2), ("Mar", 3), ("Apr", 4), ("May", 5), ("Jun", 6),
   ("Jul", 7), ("Aug", 8), ("Sep", 9), ("Oct", 10), ("Nov", 11), ("Dec", 12)]

/-- Split a character list into maximal space-free tokens (the whitespace
handling of the `%b %d %Y` parse); `cur` holds the current token reversed. -/
def splitSpacesAux : List Char → List Char → List String
  | [], cur => if cur.isEmpty then [] else [String.mk cur.reverse]
  | c :: rest, cur =>
    if c = ' ' then
      if cur.isEmpty then splitSpacesAux rest []
      else String.mk cur.reverse :: splitSpacesAux rest []
    else splitSpacesAux rest (c :: cur)

def parseDateStr (s : String) : Option PyDate :=
  match splitSpacesAux s.toList [] with
  | [monTok, dayTok, yearTok] =>
    match (monthAbbrevs.find? (fun p => p.1 = monTok)).map (fun p => p.2) with
    | none => none
    | some m =>
      if allDigits1 dayTok.toList && allDigits1 yearTok.toList then
        let d := digitsVal dayTok.toList
        if 1 ≤ d && d ≤ 31 then some ⟨digitsVal yearTok.toList, m, d⟩ else none
      else none
  | _ => none

/-! ### `scrape_single_fighter_bout_data` (main.py lines 313-418)

A bout row element is modelled by what the loop body reads from it: its
`<a href=...>` anchors in document order (`find('a', href=True)` is the
head, `find_all('a', href=True)` the whole list), the optional text of the
result-badge `<div>`, and the optional list of `<span>` texts inside the
date `<div>` (`none` when the date div itself is absent).
-/

structure Anchor where
  href : String
  text : String
  deriving DecidableEq, Repr

structure BoutRow where
  anchors : List Anchor
  result_badge : Option String
  date_spans : Option (List String)
  deriving DecidableEq, Repr

/-- A row of the global `fighter_df` as used by the bout extractor: only
`fighter_name` and a resolved `fighter_url` are read. -/
structure TrackedFighter where
  fighter_name : String
  fighter_url : String
  deriving DecidableEq, Repr

structure BoutRecord where
  principle_fighter : String
  opponent_fighter : String
  result : String
  fight_date : PyDate
  deriving DecidableEq, Repr

/-- Outcome of one iteration of the `for bout in bouts_table` loop:
skipped before the opponent-URL counter, counted but skipped as untracked,
or counted with a record produced. -/
inductive RowOutcome where
  | noLink
  | untracked
  | record (b : BoutRecord)
  deriving DecidableEq, Repr

/-- Lines 360-405: the result and date extraction for a row whose opponent
is tracked (`opp`), producing the bout record.  The result is computed
first (lines 360-374), then the date (lines 376-398), as in the source. -/
def boutRowRecord (principal : String) (opp : TrackedFighter) (row : BoutRow) :
    Except ScrapeError BoutRecord :=
  -- upcoming-bout marker: any anchor whose text contains the phrase
  let resultE : Except ScrapeError String :=
    if row.anchors.any (fun a => containsSub "Confirmed Upcoming Bout" a.text) then
      .ok "S"
    else
      match row.result_badge with
      | some badgeTxt => .ok (pyStrip badgeTxt)
      | none => .error (.malformedBoutRow "Could not find bout result.")
  match resultE with
  | .error e => .error e
  | .ok result =>
    match row.date_spans with
    | none => .error (.malformedBoutRow "Could not find fight date div.")
    | some spans =>
      match spans with
      | [yearTxt, monthDayTxt] =>
        -- `f"{month_day} {year}"` parsed as `%b %d %Y`
        match parseDateStr (pyStrip monthDayTxt ++ " " ++ pyStrip yearTxt) with
        | some d =>
          .ok { principle_fighter := principal, opponent_fighter := opp.fighter_name,
                result := result, fight_date := d }
        | none => .error (.dateParseError (pyStrip monthDayTxt ++ " " ++ pyStrip yearTxt))
      | _ => .error (.malformedBoutRow "Could not find fight date spans.")

/-- Lines 336-410: one iteration of the row loop. -/
def processBoutRow (tracked : List TrackedFighter) (principal : String)
    (row : BoutRow) : Except ScrapeError RowOutcome :=
  -- `opponent_link = bout.find('a', href=True)`
  match row.anchors.head? with
  | none => .ok .noLink
  | some firstLink =>
    if containsSub "/fightcenter/fighters/" firstLink.href then
      -- `if opponent_url in fighter_df['fighter_url'].values`
      match tracked.find? (fun f => f.fighter_url = firstLink.href) with
      | none => .ok .untracked
      | some opp => (boutRowRecord principal opp row).map RowOutcome.record
    else
      .ok .noLink

/-- Lines 334-410: the row loop, carrying `found_opponent_url_count` and the
accumulated `bout_df`. -/
def singleLoop (tracked : List TrackedFighter) (principal : String) :
    List BoutRow → Nat → List BoutRecord → Except ScrapeError (Nat × List BoutRecord)
  | [], count, acc => .ok (count, acc)
  | row :: rest, count, acc =>
    match processBoutRow tracked principal row with
    | .error e => .error e
    | .ok .noLink => singleLoop tracked principal rest count acc
    | .ok .untracked => singleLoop tracked principal rest (count + 1) acc
    | .ok (.record b) => singleLoop tracked principal rest (count + 1) (acc ++ [b])

/-- Lines 313-418 (page fetch elided: `rows` is what BeautifulSoup finds on
the successfully fetched page). -/
def scrape_single_fighter_bout_data (tracked : List TrackedFighter)
    (fighter_name : String) (rows : List BoutRow) : Except ScrapeError (List BoutRecord) :=
  match singleLoop tracked fighter_name rows 0 [] with
  | .error e => .error e
  | .ok (count, acc) =>
    if count = 0 then .error (.noTrackedOpponentsFound fighter_name)
    else .ok acc

/-! ### `scrape_all_fighter_bout_data` (main.py lines 421-466) -/

/-- A cell of the `fighter_url` column: Python `None` (column missing from
the row), float `NaN` (unmatched name in the `map` on line 209), or a
string. -/
inductive PyCell where
  | noneV
  | nanV
  | strV (s : String)
  deriving DecidableEq, Repr

/-- Python truthiness of such a cell: `None` and `""` are falsy,
`float('nan')` is truthy. -/
def pyTruthy : PyCell → Bool
  | .noneV => false
  | .nanV => true
  | .strV s => !(s == "")

structure FighterRow where
  fighter_name : String
  fighter_url : PyCell
  deriving DecidableEq, Repr

/-- Lines 426-433: the per-fighter loop.  `pages` maps a fighter URL to the
bout-row elements of the fetched detail page. -/
def allFightersLoop (tracked : List TrackedFighter) (pages : String → List BoutRow) :
    List FighterRow → Except ScrapeError (List BoutRecord)
  | [] => .ok []
  | f :: fs =>
    if pyTruthy f.fighter_url then
      match f.fighter_url with
      | .strV url => do
        let bouts ← scrape_single_fighter_bout_data tracked f.fighter_name (pages url)
        let rest ← allFightersLoop tracked pages fs
        pure (bouts ++ rest)
      | .nanV =>
        -- NaN is truthy, so the fetch is attempted:
        -- `urljoin(tapology_url, nan)` raises TypeError
        .error .typeErrorMixedStr
      | .noneV => .error .typeErrorMixedStr   -- unreachable: `None` is falsy
    else
      allFightersLoop tracked pages fs

/-- Lines 448-449: the list of results treated as "completed", in source
order. -/
def completedValues : List String :=
  [FightResult.WIN.value, FightResult.LOSS.value,
   FightResult.NO_CONTEST.value, FightResult.DRAW.value, FightResult.SCHEDULED.value]

/-- Lines 445-450. -/
def completedBoutExists (allBouts : List BoutRecord) (bout : BoutRecord) : Bool :=
  allBouts.any (fun b =>
    b.principle_fighter = bout.principle_fighter
      && b.opponent_fighter = bout.opponent_fighter
      && completedValues.contains b.result)

/-- Lines 441-458: the clean-up loop.  Mirrors the source control flow: a
CANCELLED bout with a completed counterpart hits `continue`; a CANCELLED
bout without one falls out of the inner `if` — the `append` lives only in
the outer `else` branch, so it is not appended either. -/
def reconcileLoop (allBouts : List BoutRecord) : List BoutRecord → List BoutRecord
  | [] => []
  | b :: bs =>
    if b.result = FightResult.CANCELLED.value then
      if completedBoutExists allBouts b then
        reconcileLoop allBouts bs
      else
        reconcileLoop allBouts bs
    else
      b :: reconcileLoop allBouts bs

def reconcileBouts (bouts : List BoutRecord) : List BoutRecord :=
  reconcileLoop bouts bouts

def padTo (width : Nat) (n : Nat) : String :=
  let s := toString n
  String.mk (List.replicate (width - s.length) '0') ++ s

/-- Line 463-464: `dt.strftime('%Y-%m-%d')`. -/
def formatDateIso (d : PyDate) : String :=
  padTo 4 d.year ++ "-" ++ padTo 2 d.month ++ "-" ++ padTo 2 d.day

structure CleanBout where
  principle_fighter : String
  opponent_fighter : String
  result : String
  fight_date : String
  deriving DecidableEq, Repr

/-- Lines 421-466.  When every bout is dropped, `pd.DataFrame([])` has no
columns and line 463 raises `KeyError: 'fight_date'`. -/
def scrape_all_fighter_bout_data (tracked : List TrackedFighter)
    (pages : String → List BoutRow) (fighters : List FighterRow) :
    Except ScrapeError (List CleanBout) := do
  let bouts ← allFightersLoop tracked pages fighters
  let cleaned := reconcileBouts bouts
  if cleaned.isEmpty then
    .error .keyErrorFightDate
  else
    pure (cleaned.map (fun b =>
      { principle_fighter := b.principle_fighter, opponent_fighter := b.opponent_fighter,
        result := b.result, fight_date := formatDateIso b.fight_date }))

/-! ### `get_url_data` (main.py lines 214-310)

`searchWeb` maps a fighter name to the parsed search-results page for that
name (the URL construction, the retried fetch with `max_retries=15`, and
BeautifulSoup are elided: the field holds the anchors of the
`table.fcLeaderboard` element, `none` when that table is absent).  The
`cache` argument models the contents of `data/fighter_urls_cache.json`
(`[]` when the file does not exist); the result carries the `url_data`
list, the cache file as rewritten on line 306, and the number of live
search calls issued.
-/

structure SearchPage where
  results_table : Option (List Anchor)

structure UrlRecord where
  fighter_name : String
  fighter_url : String
  deriving DecidableEq, Repr

structure UrlDataResult where
  url_data : List UrlRecord
  persisted_cache : List UrlRecord
  live_calls : Nat
  deriving DecidableEq, Repr

/-- Lines 246-298: the cache-miss branch. -/
def resolveFighter (searchWeb : String → SearchPage) (name : String) :
    Except ScrapeError UrlRecord :=
  match (searchWeb name).results_table with
  | none => .error .searchTableMissing
  | some anchors =>
    -- `result_links`: anchors whose href contains the fighter-page marker;
    -- the first one is taken as the best match
    match (anchors.filter (fun a => containsSub "/fightcenter/fighters/" a.href)).head? with
    | none => .error (.noSearchResults name)
    | some firstResult =>
      if firstResult.href = "" then .error .emptyResultHref
      else .ok ⟨name, firstResult.href⟩

/-- Lines 225-300: the per-fighter loop.  Note the cache consulted is the
one loaded at entry; records appended to `url_data` during the run are not
visible to later iterations. -/
def urlLoop (searchWeb : String → SearchPage) (cache : List UrlRecord) :
    List String → Except ScrapeError (List UrlRecord × Nat)
  | [] => .ok ([], 0)
  | name :: rest =>
    match cache.find? (fun r => r.fighter_name = name) with
    | some hit =>
      -- cache hit: reuse the cached URL, no live search
      match urlLoop searchWeb cache rest with
      | .error e => .error e
      | .ok (more, calls) => .ok (⟨name, hit.fighter_url⟩ :: more, calls)
    | none =>
      -- cache miss: live search (errors propagate and abort the run)
      match resolveFighter searchWeb name with
      | .error e => .error e
      | .ok urlRecord =>
        match urlLoop searchWeb cache rest with
        | .error e => .error e
        | .ok (more, calls) => .ok (urlRecord :: more, calls + 1)

/-- Lines 214-310. -/
def get_url_data (searchWeb : String → SearchPage) (cache : List UrlRecord)
    (fighters : List String) : Except ScrapeError UrlDataResult :=
  match urlLoop searchWeb cache fighters with
  | .error e => .error e
  | .ok (url_data, calls) =>
    -- lines 304-307: the cache file is rewritten with exactly `url_data`
    .ok { url_data := url_data, persisted_cache := url_data, live_calls := calls }

/-! ### `data_quality_checks` (main.py lines 477-498) -/

/-- Membership in `principle_fighters ∩ opponent_fighters` (lines 480-484). -/
def appearsInBoth (bouts : List BoutRecord) (x : String) : Bool :=
  bouts.any (fun b => b.principle_fighter = x) && bouts.any (fun b => b.opponent_fighter = x)

/-- Lines 488-498: the check loop over the full record list. -/
def dqLoop (allBouts : List BoutRecord) : List BoutRecord → Except ScrapeError Unit
  | [] => .ok ()
  | b :: rest =>
    if appearsInBoth allBouts b.principle_fighter && appearsInBoth allBouts b.opponent_fighter then
      if allBouts.any (fun r =>
          r.principle_fighter = b.opponent_fighter && r.opponent_fighter = b.principle_fighter) then
        dqLoop allBouts rest
      else
        .error (.reciprocityViolation b.principle_fighter b.opponent_fighter)
    else
      dqLoop allBouts rest

def data_quality_checks (bouts : List BoutRecord) : Except ScrapeError Unit :=
  dqLoop bouts bouts

/-! ### Concrete fixtures used by the claim theorems -/

def sharedSearchWeb : String → SearchPage :=
  fun _ => ⟨some [⟨"/fightcenter/fighters/a1", "A Fighter"⟩]⟩

def c6OldCache : List UrlRecord := [⟨"B", "/fightcenter/fighters/b"⟩]

def c3Tracked : List TrackedFighter := [⟨"Fighter A", "/fightcenter/fighters/a"⟩]

def c3UntrackedRow : BoutRow :=
  ⟨[⟨"/fightcenter/fighters/unknown", "Unk"⟩], some "W", some ["2024", "Jan 1"]⟩

def c9Tracked : List TrackedFighter := [⟨"Opp Fighter", "/fightcenter/fighters/opp"⟩]

def c9Row (badge : String) : BoutRow :=
  ⟨[⟨"/fightcenter/fighters/opp", "Opp Fighter"⟩], some badge, some ["2024", "Mar 9"]⟩

def c1CancelledBout : BoutRecord := ⟨"A", "B", "C", ⟨2024, 1, 1⟩⟩

def c1WinBout : BoutRecord := ⟨"A", "B", "W", ⟨2024, 3, 1⟩⟩

def c10Pages : String → List BoutRow := fun _ => []

/-- Row-level predicate used to state the amended C3 claim: the row's first
anchor exists and its href contains the fighter-page marker (main.py lines
340-345). -/
def hasOpponentLink (row : BoutRow) : Bool :=
  match row.anchors.head? with
  | none => false
  | some a => containsSub "/fightcenter/fighters/" a.href

/-! ## Lemmas about `retry_with_backoff` -/

theorem retryGo_allFail {ε α : Type} (err : Nat → ε) (k : Nat) :
    ∀ (fuel a : Nat) (d : ℚ) (l : Option ε), k ≤ fuel →
      retryGo (fun i => (Except.error (err i) : Except ε α)) (a + k + 1) fuel a d l =
        ⟨.error (.exhausted (err (a + k))), k + 1,
          (List.range k).map (fun i => 2 ^ i * d)⟩ := by
  induction k with
  | zero =>
    intro fuel a d l _
    rw [retryGo]
    simp
  | succ k ih =>
    intro fuel a d l hfuel
    obtain ⟨fuel', rfl⟩ : ∃ fuel0, fuel = fuel0 + 1 := ⟨fuel - 1, by omega⟩
    rw [retryGo]
    have h1 : a < a + (k + 1) + 1 := by omega
    have h2 : ¬ (a + (k + 1) + 1 ≤ a + 1) := by omega
    simp only [if_pos h1, if_neg h2]
    have hrec := ih fuel' (a + 1) (d * 2) (some (err a)) (by omega)
    have harg : a + 1 + k = a + (k + 1) := by omega
    rw [harg] at hrec
    rw [hrec]
    refine congrArg (RetryResult.mk _ _) ?_
    rw [List.range_succ_eq_map, List.map_cons, List.map_map]
    refine congrArg₂ List.cons (by norm_num) ?_
    refine List.map_congr_left ?_
    intro i _
    simp [Function.comp, pow_succ]
    ring

theorem retryGo_succeeds {ε α : Type} (g : Nat → Except ε α) (v : α) (k : Nat) :
    ∀ (fuel a m : Nat) (d : ℚ) (l : Option ε), k ≤ fuel → a + k < m →
      (∀ i, a ≤ i → i < a + k → ∃ e, g i = .error e) → g (a + k) = .ok v →
      (retryGo g m fuel a d l).result = .ok v
        ∧ (retryGo g m fuel a d l).calls = k + 1 := by
  induction k with
  | zero =>
    intro fuel a m d l _ hlt _ hok
    rw [retryGo]
    have hlt2 : a < m := by omega
    rw [show a + 0 = a from rfl] at hok
    rw [if_pos hlt2, hok]
    exact ⟨rfl, rfl⟩
  | succ k ih =>
    intro fuel a m d l hfuel hlt herr hok
    obtain ⟨fuel', rfl⟩ : ∃ fuel0, fuel = fuel0 + 1 := ⟨fuel - 1, by omega⟩
    obtain ⟨e, he⟩ := herr a (le_refl a) (by omega)
    rw [retryGo]
    have h1 : a < m := by omega
    have h2 : ¬ (m ≤ a + 1) := by omega
    simp only [if_pos h1, if_neg h2, he]
    have hrec := ih fuel' (a + 1) m (d * 2) (some e) (by omega) (by omega)
      (fun i hi1 hi2 => herr i (by omega) (by omega))
      (by rw [show a + 1 + k = a + (k + 1) from by omega]; exact hok)
    exact ⟨hrec.1, by simp [hrec.2]⟩

/-- C4: for every `max_retries = n ≥ 1` and `initial_delay = d`, an
operation that always fails with a retryable error is invoked exactly `n`
times, with sleeps `d, 2d, 4d, ..., 2^(n-2)·d` between consecutive
attempts (the `n-1` delays double each time, no jitter, no cap), and the
run fails with the exhaustion error carrying the last underlying cause;
an operation that first succeeds on attempt `k+1 ≤ n` returns its result
after exactly `k+1` invocations. -/
theorem c4_backoff_law {ε α : Type} (err : Nat → ε) (n : Nat) (d : ℚ) (hn : 1 ≤ n) :
    ((retry_with_backoff (fun i => (Except.error (err i) : Except ε α)) n d).calls = n
      ∧ (retry_with_backoff (fun i => (Except.error (err i) : Except ε α)) n d).sleeps
          = (List.range (n - 1)).map (fun i => 2 ^ i * d)
      ∧ (retry_with_backoff (fun i => (Except.error (err i) : Except ε α)) n d).result
          = .error (.exhausted (err (n - 1))))
    ∧ (∀ (g : Nat → Except ε α) (k : Nat) (v : α), k < n →
        (∀ i, i < k → ∃ e, g i = .error e) → g k = .ok v →
        (retry_with_backoff g n d).result = .ok v
          ∧ (retry_with_backoff g n d).calls = k + 1) := by
  obtain ⟨m, rfl⟩ : ∃ m, n = m + 1 := ⟨n - 1, by omega⟩
  constructor
  · have h := retryGo_allFail (ε := ε) (α := α) err m (m + 1) 0 d none (by omega)
    rw [Nat.zero_add] at h
    unfold retry_with_backoff
    rw [h]
    exact ⟨rfl, rfl, rfl⟩
  · intro g k v hk herr hok
    have h := retryGo_succeeds g v k (m + 1) 0 (m + 1) d none (by omega) (by omega)
      (fun i _ hi2 => herr i (by omega))
      (by rw [Nat.zero_add]; exact hok)
    exact h

/-- Witness for C4 at `n = 3`, `d = 1`: three attempts, sleeps `[1, 2]`,
exhaustion carries the cause of attempt 3; success on attempt 2 stops
after 2 calls. -/
theorem c4_backoff_law_witness :
    (retry_with_backoff (fun i => (Except.error (toString i) : Except String Nat)) 3 1).calls = 3
    ∧ (retry_with_backoff (fun i => (Except.error (toString i) : Except String Nat)) 3 1).sleeps
        = [1, 2]
    ∧ (retry_with_backoff (fun i => (Except.error (toString i) : Except String Nat)) 3 1).result
        = .error (.exhausted "2")
    ∧ (retry_with_backoff
        (fun i => if i = 1 then .ok 7 else (Except.error (toString i) : Except String Nat))
        3 1).result = .ok 7 := by
  have hmain := c4_backoff_law (ε := String) (α := Nat) (fun i => toString i) 3 1 (by norm_num)
  refine ⟨hmain.1.1, ?_, ?_, ?_⟩
  · rw [hmain.1.2.1]
    norm_num [List.range_succ]
  · rw [hmain.1.2.2]
    rfl
  · exact (hmain.2 (fun i => if i = 1 then .ok 7 else .error (toString i)) 1 7 (by norm_num)
      (fun i hi => by
        have h0 : i = 0 := by omega
        subst h0
        exact ⟨"0", rfl⟩) rfl).1

/-! ## Lemmas about the movement-cell parser -/

theorem not_space_of_digit (c : Char) (h : isDigitChar c = true) : isSpaceChar c = false := by
  have h2 : 48 ≤ c.toNat ∧ c.toNat ≤ 57 := by simpa [isDigitChar] using h
  simp only [isSpaceChar, Bool.or_eq_false_iff, decide_eq_false_iff_not]
  omega

theorem startsWithChars_append_left (p : List Char) :
    ∀ (l r : List Char), p.length ≤ l.length →
      startsWithChars p (l ++ r) = startsWithChars p l := by
  induction p with
  | nil => intro l r _; rfl
  | cons x xs ih =>
    intro l r h
    cases l with
    | nil => simp at h
    | cons y ys =>
      simp only [List.cons_append, startsWithChars, List.append_eq]
      rw [ih ys r (by simpa using h)]

theorem startsWithChars_self_append (p r : List Char) :
    startsWithChars p (p ++ r) = true := by
  induction p with
  | nil => rfl
  | cons x xs ih => simp [startsWithChars, ih]

theorem digitSpan_all (ds : List Char) (h : ds.all isDigitChar = true) :
    digitSpan ds = (ds, []) := by
  induction ds with
  | nil => rfl
  | cons c cs ih =>
    simp only [List.all_cons, Bool.and_eq_true] at h
    simp [digitSpan, h.1, ih h.2]

theorem pyStrip_eq_self (l : List Char)
    (hhead : ∀ c, l.head? = some c → isSpaceChar c = false)
    (hlast : ∀ c, l.getLast? = some c → isSpaceChar c = false) :
    pyStrip (String.mk l) = String.mk l := by
  cases l with
  | nil => rfl
  | cons c t =>
    have hc := hhead c rfl
    unfold pyStrip
    have e1 : (String.mk (c :: t)).toList = c :: t := rfl
    rw [e1, List.dropWhile_cons, if_neg (by simp [hc])]
    have hne : (c :: t).reverse ≠ [] := by simp
    obtain ⟨d, tt, hd⟩ := List.exists_cons_of_ne_nil hne
    have hdl : (c :: t).getLast? = some d := by
      rw [← List.head?_reverse, hd]
      rfl
    have hdns := hlast d hdl
    rw [hd, List.dropWhile_cons, if_neg (by simp [hdns]), ← hd, List.reverse_reverse]

theorem movementMatchAt_inc (ds : List Char) (hne : ds ≠ [])
    (hdig : ds.all isDigitChar = true) :
    movementMatchAt (incPattern ++ ds) = some ((digitsVal ds : Int)) := by
  unfold movementMatchAt
  rw [if_pos (by rw [startsWithChars_self_append])]
  rw [List.drop_left, digitSpan_all ds hdig]
  simp [List.isEmpty_iff, hne]

theorem movementMatchAt_dec (ds : List Char) (hne : ds ≠ [])
    (hdig : ds.all isDigitChar = true) :
    movementMatchAt (decPattern ++ ds) = some (-(digitsVal ds : Int)) := by
  unfold movementMatchAt
  have hfalse : startsWithChars incPattern (decPattern ++ ds) = false := by
    rw [startsWithChars_append_left _ _ _ (by decide)]
    decide
  rw [if_neg (by simp [hfalse]), if_pos (by rw [startsWithChars_self_append])]
  rw [List.drop_left, digitSpan_all ds hdig]
  simp [List.isEmpty_iff, hne]

theorem movementSearch_of_matchAt (cs : List Char) (v : Int)
    (h : movementMatchAt cs = some v) : movementSearch cs = some v := by
  cases cs with
  | nil =>
    have hnil : movementMatchAt ([] : List Char) = none := by decide
    rw [hnil] at h
    exact Option.noConfusion h
  | cons c rest =>
    rw [movementSearch, h]

theorem head_digit_of_digitSpan_ne (l : List Char)
    (h : ((digitSpan l).1).isEmpty = false) :
    l.head?.elim false isDigitChar = true := by
  cases l with
  | nil => simp [digitSpan] at h
  | cons c t =>
    by_cases hc : isDigitChar c = true
    · simp [Option.elim, hc]
    · have hc2 : isDigitChar c = false := by simpa using hc
      simp [digitSpan, hc2] at h

theorem patternAt_of_matchAt (cs : List Char) (v : Int)
    (h : movementMatchAt cs = some v) : movementPatternAt cs = true := by
  unfold movementMatchAt at h
  unfold movementPatternAt
  by_cases hi : startsWithChars incPattern cs = true
  · rw [if_pos (by rw [hi])] at h
    by_cases hds : ((digitSpan (cs.drop incPattern.length)).1).isEmpty = true
    · rw [if_pos hds] at h
      exact Option.noConfusion h
    · have hds2 : ((digitSpan (cs.drop incPattern.length)).1).isEmpty = false := by
        simpa using hds
      have hh := head_digit_of_digitSpan_ne _ hds2
      rw [hi, Bool.true_and, hh, Bool.true_or]
  · have hi2 : startsWithChars incPattern cs = false := by simpa using hi
    rw [if_neg (by simp [hi2])] at h
    by_cases hd : startsWithChars decPattern cs = true
    · rw [if_pos (by rw [hd])] at h
      by_cases hds : ((digitSpan (cs.drop decPattern.length)).1).isEmpty = true
      · rw [if_pos hds] at h
        exact Option.noConfusion h
      · have hds2 : ((digitSpan (cs.drop decPattern.length)).1).isEmpty = false := by
          simpa using hds
        have hh := head_digit_of_digitSpan_ne _ hds2
        rw [hi2, Bool.false_and, Bool.false_or, hd, Bool.true_and, hh]
    · have hd2 : startsWithChars decPattern cs = false := by simpa using hd
      rw [if_neg (by simp [hd2])] at h
      exact Option.noConfusion h

theorem movementSearch_none (cs : List Char) (h : anyPatternPos cs = false) :
    movementSearch cs = none := by
  induction cs with
  | nil => rfl
  | cons c rest ih =>
    rw [anyPatternPos] at h
    rw [Bool.or_eq_false_iff] at h
    have hmat : movementMatchAt (c :: rest) = none := by
      cases hm : movementMatchAt (c :: rest) with
      | none => rfl
      | some v =>
        have := patternAt_of_matchAt _ _ hm
        rw [h.1] at this
        exact Bool.noConfusion this
    rw [movementSearch, hmat, ih h.2]

theorem pyStrip_pattern_digits (pat : List Char) (c0 : Char) (tl : List Char)
    (hpat : pat = c0 :: tl) (hc0 : isSpaceChar c0 = false)
    (ds : List Char) (hne : ds ≠ []) (hdig : ds.all isDigitChar = true) :
    pyStrip (String.mk (pat ++ ds)) = String.mk (pat ++ ds) := by
  apply pyStrip_eq_self
  · intro c hc
    rw [hpat] at hc
    simp only [List.cons_append, List.head?_cons, Option.some.injEq] at hc
    rw [← hc]
    exact hc0
  · intro c hc
    rw [List.getLast?_append_of_ne_nil _ hne] at hc
    have hmem : c ∈ ds := by
      obtain ⟨hh, rfl⟩ := List.mem_getLast?_eq_getLast (Option.mem_def.mpr hc)
      exact List.getLast_mem hh
    refine not_space_of_digit c ?_
    rw [List.all_eq_true] at hdig
    exact hdig c hmem

/-- C8: with the movement cell absent the parsed movement is 0; the spec's
examples parse to `+3` and `-1`; in general, a cell text that is exactly
`Rank increased by ` (resp. `Rank decreased by `) followed by a nonempty
digit string `ds` parses to `+val(ds)` (resp. `-val(ds)`); and a cell text
in which neither pattern occurs at any position parses to 0. -/
theorem c8_movement_parsing :
    parseMovementCell none = 0
    ∧ parseMovementCell (some "Rank increased by 3") = 3
    ∧ parseMovementCell (some "Rank decreased by 1") = -1
    ∧ (∀ ds : List Char, ds ≠ [] → ds.all isDigitChar = true →
        parseMovementCell (some (String.mk (incPattern ++ ds))) = (digitsVal ds : Int)
          ∧ parseMovementCell (some (String.mk (decPattern ++ ds))) = -(digitsVal ds : Int))
    ∧ (∀ s : String, containsMovementPattern s = false → parseMovementCell (some s) = 0) := by
  refine ⟨rfl, by decide, by decide, ?_, ?_⟩
  · intro ds hne hdig
    have hpi : pyStrip (String.mk (incPattern ++ ds)) = String.mk (incPattern ++ ds) :=
      pyStrip_pattern_digits incPattern 'R' ("ank increased by ".toList)
        (by decide) (by decide) ds hne hdig
    have hpd : pyStrip (String.mk (decPattern ++ ds)) = String.mk (decPattern ++ ds) :=
      pyStrip_pattern_digits decPattern 'R' ("ank decreased by ".toList)
        (by decide) (by decide) ds hne hdig
    constructor
    · simp only [parseMovementCell]
      rw [hpi, show (String.mk (incPattern ++ ds)).toList = incPattern ++ ds from rfl,
        movementSearch_of_matchAt _ _ (movementMatchAt_inc ds hne hdig)]
    · simp only [parseMovementCell]
      rw [hpd, show (String.mk (decPattern ++ ds)).toList = decPattern ++ ds from rfl,
        movementSearch_of_matchAt _ _ (movementMatchAt_dec ds hne hdig)]
  · intro s h
    simp only [containsMovementPattern] at h
    simp only [parseMovementCell]
    rw [movementSearch_none _ h]

/-- Witness for C8: the digit string `42` parses to `+42` after the
increase marker and `-42` after the decrease marker, and a pattern-free
cell text parses to 0. -/
theorem c8_movement_parsing_witness :
    parseMovementCell (some (String.mk (incPattern ++ ['4', '2']))) = 42
    ∧ parseMovementCell (some (String.mk (decPattern ++ ['4', '2']))) = -42
    ∧ parseMovementCell (some "no movement cell here") = 0 := by
  obtain ⟨h1, h2⟩ := c8_movement_parsing.2.2.2.1 ['4', '2'] (by decide) (by decide)
  refine ⟨?_, ?_, ?_⟩
  · rw [h1]; decide
  · rw [h2]; decide
  · exact c8_movement_parsing.2.2.2.2 "no movement cell here" (by decide)

/-! ## Lemmas about the ranking extractor -/

theorem scrapeTablesLoop_error (tables : List RankTable) (t : RankTable) (e : ScrapeError)
    (ht : t ∈ tables) (he : processTable t = .error e) :
    ∃ e2, scrapeTablesLoop tables = .error e2 := by
  induction tables with
  | nil => cases ht
  | cons t0 ts ih =>
    rw [scrapeTablesLoop]
    cases List.mem_cons.mp ht with
    | inl heq =>
      subst heq
      refine ⟨e, ?_⟩
      rw [he]
      rfl
    | inr hmem =>
      cases hp : processTable t0 with
      | error e0 => exact ⟨e0, rfl⟩
      | ok rs =>
        obtain ⟨e2, h2⟩ := ih hmem
        refine ⟨e2, ?_⟩
        rw [h2]
        rfl

/-- C7: in ranking extraction, a (non-pound-for-pound) table with a missing
division header or champion heading, and a row with a missing name cell or
rank cell, each produce the hard `MalformedPage` parse failure for that
element; a missing movement cell is not an error and yields movement 0; and
any table whose processing fails makes the whole extraction fail instead of
being skipped. -/
theorem c7_rankings_required_elements :
    (∀ t : RankTable, t.division_header = none →
        processTable t = .error (.malformedPage "Could not find division header for table."))
    ∧ (∀ (t : RankTable) (hdr : String), t.division_header = some hdr →
        isPoundForPound (pyStrip hdr) = false → t.champion_heading = none →
        processTable t = .error (.malformedPage "Could not find champion div for table."))
    ∧ (∀ (d : String) (row : RankRow), row.name_cell = none →
        processFighterRow d row = .error (.malformedPage "Could not find fighter div in row."))
    ∧ (∀ (d : String) (row : RankRow) (nm : String), row.name_cell = some nm →
        row.rank_cell = none →
        processFighterRow d row = .error (.malformedPage "Could not find rank string in row."))
    ∧ (∀ (d : String) (row : RankRow) (r0 : RankingRecord), row.movement_cell = none →
        processFighterRow d row = .ok r0 → r0.movement = 0)
    ∧ (∀ (tables : List RankTable) (t : RankTable) (e : ScrapeError), t ∈ tables →
        processTable t = .error e → ∃ e2, scrape_ufc_rankings tables = .error e2) := by
  refine ⟨?_, ?_, ?_, ?_, ?_, ?_⟩
  · intro t h
    simp [processTable, h]
  · intro t hdr h1 h2 h3
    simp [processTable, h1, h2, h3]
  · intro d row h
    simp [processFighterRow, h]
  · intro d row nm h1 h2
    simp [processFighterRow, h1, h2]
  · intro d row r0 hmov hok
    cases hn : row.name_cell with
    | none => simp [processFighterRow, hn] at hok
    | some nameTxt =>
      cases hr : row.rank_cell with
      | none => simp [processFighterRow, hn, hr] at hok
      | some rankTxt =>
        cases hi : pyInt (removeHashes (pyStrip rankTxt)) with
        | none => simp [processFighterRow, hn, hr, hi] at hok
        | some rank =>
          simp only [processFighterRow, hn, hr, hi, Except.ok.injEq] at hok
          rw [← hok]
          simp [hmov, parseMovementCell]
  · intro tables t e ht he
    exact scrapeTablesLoop_error tables t e ht he

/-- Witness for C7 at concrete tables and rows. -/
theorem c7_rankings_required_elements_witness :
    processTable ⟨none, some "Champ", []⟩
        = .error (.malformedPage "Could not find division header for table.")
    ∧ processTable ⟨some "Lightweight", none, []⟩
        = .error (.malformedPage "Could not find champion div for table.")
    ∧ processFighterRow "Lightweight" ⟨none, some "#1", none⟩
        = .error (.malformedPage "Could not find fighter div in row.")
    ∧ processFighterRow "Lightweight" ⟨some "F1", none, none⟩
        = .error (.malformedPage "Could not find rank string in row.")
    ∧ (⟨"Lightweight", "F1", 1, 0⟩ : RankingRecord).movement = 0
    ∧ (∃ e2, scrape_ufc_rankings [⟨none, some "Champ", []⟩] = .error e2) := by
  obtain ⟨p1, p2, p3, p4, p5, p6⟩ := c7_rankings_required_elements
  refine ⟨p1 _ rfl, p2 _ "Lightweight" rfl (by decide) rfl, p3 _ _ rfl,
    p4 _ _ "F1" rfl rfl, ?_, ?_⟩
  · exact p5 "Lightweight" ⟨some "F1", some "#1", none⟩ _ rfl rfl
  · exact p6 [⟨none, some "Champ", []⟩] ⟨none, some "Champ", []⟩ _ (by simp) (p1 _ rfl)

/-! ## Lemmas about the bout extractor -/

theorem processBoutRow_noLink_of (tracked : List TrackedFighter) (p : String) (row : BoutRow)
    (h : hasOpponentLink row = false) :
    processBoutRow tracked p row = .ok .noLink := by
  cases hh : row.anchors.head? with
  | none => simp [processBoutRow, hh]
  | some a =>
    simp only [hasOpponentLink, hh] at h
    simp only [processBoutRow, hh]
    rw [if_neg (by simp [h])]

theorem hasOpponentLink_of_processBoutRow (tracked : List TrackedFighter) (p : String)
    (row : BoutRow) (h : processBoutRow tracked p row = .ok .noLink) :
    hasOpponentLink row = false := by
  cases hh : row.anchors.head? with
  | none => simp [hasOpponentLink, hh]
  | some a =>
    simp only [processBoutRow, hh] at h
    simp only [hasOpponentLink, hh]
    by_cases hc : containsSub "/fightcenter/fighters/" a.href = true
    · exfalso
      rw [if_pos hc] at h
      cases hf : tracked.find? (fun f => f.fighter_url = a.href) with
      | none => simp only [hf] at h; simp at h
      | some opp =>
        simp only [hf] at h
        cases hb : boutRowRecord p opp row with
        | error e => simp only [hb, Except.map] at h; exact Except.noConfusion h
        | ok b => simp only [hb, Except.map] at h; simp at h
    · simpa using hc

theorem singleLoop_all_noLink (tracked : List TrackedFighter) (p : String) :
    ∀ (rows : List BoutRow) (count : Nat) (acc : List BoutRecord),
      (∀ r ∈ rows, hasOpponentLink r = false) →
      singleLoop tracked p rows count acc = .ok (count, acc) := by
  intro rows
  induction rows with
  | nil => intro count acc _; rfl
  | cons r rest ih =>
    intro count acc h
    rw [singleLoop, processBoutRow_noLink_of tracked p r (h r (by simp))]
    exact ih count acc (fun r2 hr2 => h r2 (by simp [hr2]))

theorem singleLoop_count (tracked : List TrackedFighter) (p : String) :
    ∀ (rows : List BoutRow) (count : Nat) (acc : List BoutRecord) (c : Nat)
      (a : List BoutRecord),
      singleLoop tracked p rows count acc = .ok (c, a) →
      count ≤ c ∧ ((∃ r ∈ rows, hasOpponentLink r = true) → count < c) := by
  intro rows
  induction rows with
  | nil =>
    intro count acc c a h
    rw [singleLoop] at h
    simp only [Except.ok.injEq, Prod.mk.injEq] at h
    refine ⟨le_of_eq h.1, ?_⟩
    rintro ⟨r, hr, _⟩
    exact absurd hr (List.not_mem_nil r)
  | cons r rest ih =>
    intro count acc c a h
    rw [singleLoop] at h
    cases hp : processBoutRow tracked p r with
    | error e => rw [hp] at h; exact Except.noConfusion h
    | ok oc =>
      rw [hp] at h
      cases oc with
      | noLink =>
        have h2 := ih count acc c a h
        refine ⟨h2.1, ?_⟩
        rintro ⟨r2, hr2, hlink⟩
        cases List.mem_cons.mp hr2 with
        | inl heq =>
          subst heq
          rw [hasOpponentLink_of_processBoutRow tracked p r2 hp] at hlink
          exact Bool.noConfusion hlink
        | inr hmem => exact h2.2 ⟨r2, hmem, hlink⟩
      | untracked =>
        obtain ⟨h21, _⟩ := ih (count + 1) acc c a h
        exact ⟨by omega, fun _ => by omega⟩
      | record b =>
        obtain ⟨h21, _⟩ := ih (count + 1) (acc ++ [b]) c a h
        exact ⟨by omega, fun _ => by omega⟩

theorem boutRowRecord_error_shape (p : String) (opp : TrackedFighter) (row : BoutRow)
    (e : ScrapeError) (h : boutRowRecord p opp row = .error e) :
    (∃ m, e = .malformedBoutRow m) ∨ (∃ t0, e = .dateParseError t0) := by
  unfold boutRowRecord at h
  iterate 6 (all_goals try split at h)
  all_goals try simp_all
  all_goals (first | exact Or.inl ⟨_, h.symm⟩ | exact Or.inr ⟨_, h.symm⟩)

theorem processBoutRow_error_shape (tracked : List TrackedFighter) (p : String)
    (row : BoutRow) (e : ScrapeError) (h : processBoutRow tracked p row = .error e) :
    (∃ m, e = .malformedBoutRow m) ∨ (∃ t0, e = .dateParseError t0) := by
  cases hh : row.anchors.head? with
  | none => simp [processBoutRow, hh] at h
  | some a =>
    simp only [processBoutRow, hh] at h
    by_cases hc : containsSub "/fightcenter/fighters/" a.href = true
    · rw [if_pos hc] at h
      cases hf : tracked.find? (fun f => f.fighter_url = a.href) with
      | none => simp only [hf] at h; simp at h
      | some opp =>
        simp only [hf] at h
        cases hb : boutRowRecord p opp row with
        | error e0 =>
          simp only [hb, Except.map] at h
          injection h with h2
          subst h2
          exact boutRowRecord_error_shape p opp row _ hb
        | ok b => simp only [hb, Except.map] at h; simp at h
    · rw [if_neg hc] at h
      simp at h

theorem singleLoop_error_shape (tracked : List TrackedFighter) (p : String) :
    ∀ (rows : List BoutRow) (count : Nat) (acc : List BoutRecord) (e : ScrapeError),
      singleLoop tracked p rows count acc = .error e →
      (∃ m, e = .malformedBoutRow m) ∨ (∃ t0, e = .dateParseError t0) := by
  intro rows
  induction rows with
  | nil => intro count acc e h; rw [singleLoop] at h; exact Except.noConfusion h
  | cons r rest ih =>
    intro count acc e h
    rw [singleLoop] at h
    cases hp : processBoutRow tracked p r with
    | error e0 =>
      rw [hp] at h
      change Except.error e0 = Except.error e at h
      injection h with h2
      subst h2
      exact processBoutRow_error_shape tracked p r _ hp
    | ok oc =>
      rw [hp] at h
      cases oc with
      | noLink => exact ih count acc e h
      | untracked => exact ih (count + 1) acc e h
      | record b => exact ih (count + 1) (acc ++ [b]) e h

/-- C3 counterexample: a detail page whose single row links an untracked
opponent parses without structural errors and matches zero tracked
locators, yet extraction returns the empty record set instead of failing
with `NoTrackedOpponentsFound` — the opponent-URL counter increments
before the tracked check (main.py line 347). -/
theorem c3_counterexample :
    scrape_single_fighter_bout_data c3Tracked "Fighter A" [c3UntrackedRow] = .ok [] := rfl

/-- C3 amended: extraction fails with `NoTrackedOpponentsFound` exactly
when no row carries a recognizable opponent link at all: if every row
lacks an opponent link the call fails with that error, and if at least one
row has an opponent link — even one pointing at an untracked entity — the
call never produces that error. -/
theorem c3_no_tracked_opponents_amended (tracked : List TrackedFighter) (name : String)
    (rows : List BoutRow) :
    ((∀ r ∈ rows, hasOpponentLink r = false) →
      scrape_single_fighter_bout_data tracked name rows
        = .error (.noTrackedOpponentsFound name))
    ∧ ((∃ r ∈ rows, hasOpponentLink r = true) →
      scrape_single_fighter_bout_data tracked name rows
        ≠ .error (.noTrackedOpponentsFound name)) := by
  constructor
  · intro h
    unfold scrape_single_fighter_bout_data
    rw [singleLoop_all_noLink tracked name rows 0 [] h]
    rfl
  · rintro ⟨r, hr, hlink⟩ hcontra
    unfold scrape_single_fighter_bout_data at hcontra
    cases hs : singleLoop tracked name rows 0 [] with
    | error e =>
      simp only [hs] at hcontra
      injection hcontra with h2
      subst h2
      rcases singleLoop_error_shape tracked name rows 0 [] _ hs with ⟨m, hm⟩ | ⟨t0, ht0⟩
      · exact ScrapeError.noConfusion hm
      · exact ScrapeError.noConfusion ht0
    | ok ca =>
      obtain ⟨c, acc⟩ := ca
      simp only [hs] at hcontra
      have hcount := singleLoop_count tracked name rows 0 [] c acc hs
      have hpos : 0 < c := hcount.2 ⟨r, hr, hlink⟩
      rw [if_neg (by omega)] at hcontra
      exact Except.noConfusion hcontra

/-- Witness for the amended C3 at concrete pages: a page with no rows at
all fails with the sentinel; the counterexample page (one untracked
opponent link) does not. -/
theorem c3_amended_witness :
    scrape_single_fighter_bout_data c3Tracked "Fighter A" []
        = .error (.noTrackedOpponentsFound "Fighter A")
    ∧ scrape_single_fighter_bout_data c3Tracked "Fighter A" [c3UntrackedRow]
        ≠ .error (.noTrackedOpponentsFound "Fighter A") := by
  constructor
  · exact (c3_no_tracked_opponents_amended c3Tracked "Fighter A" []).1
      (fun r hr => absurd hr (List.not_mem_nil r))
  · exact (c3_no_tracked_opponents_amended c3Tracked "Fighter A" [c3UntrackedRow]).2
      ⟨c3UntrackedRow, by simp, rfl⟩

/-- C9: for a bout row with a tracked opponent and no upcoming-bout
marker, the stored result is the (stripped) badge text, whatever it is,
with no validation against the closed result set: every badge string is
stored unchanged, including values (such as `XX`) outside the
`FightResult` value set `W/L/D/NC/S/C`. -/
theorem c9_result_not_validated :
    (∀ badge : String,
      scrape_single_fighter_bout_data c9Tracked "Main F" [c9Row badge]
        = .ok [{ principle_fighter := "Main F", opponent_fighter := "Opp Fighter",
                 result := pyStrip badge, fight_date := ⟨2024, 3, 9⟩ }])
    ∧ allFightResultValues.contains "XX" = false
    ∧ scrape_single_fighter_bout_data c9Tracked "Main F" [c9Row "XX"]
        = .ok [{ principle_fighter := "Main F", opponent_fighter := "Opp Fighter",
                 result := "XX", fight_date := ⟨2024, 3, 9⟩ }] := by
  refine ⟨?_, by decide, rfl⟩
  intro badge
  rfl

/-- C1: the reconciliation pass at the claim's failing input.  A CANCELLED
record with no counterpart of any kind is dropped anyway — the `append`
lives only in the non-CANCELLED branch of the loop — although the code's
own comments (and the spec) say only cancelled bouts with a completed
counterpart should be removed.  The companion input with a completed
counterpart keeps only the WIN record, as documented. -/
theorem c1_cancelled_always_dropped :
    reconcileBouts [c1CancelledBout] = []
    ∧ reconcileBouts [c1CancelledBout, c1WinBout] = [c1WinBout] :=
  ⟨rfl, rfl⟩

/-! ## Lemmas about the reciprocity check -/

theorem dqLoop_ok_iff (allBouts : List BoutRecord) :
    ∀ l : List BoutRecord,
      dqLoop allBouts l = .ok () ↔
        ∀ b ∈ l,
          (appearsInBoth allBouts b.principle_fighter
            && appearsInBoth allBouts b.opponent_fighter) = true →
          (allBouts.any fun r2 =>
            r2.principle_fighter = b.opponent_fighter
              && r2.opponent_fighter = b.principle_fighter) = true := by
  intro l
  induction l with
  | nil => simp [dqLoop]
  | cons b rest ih =>
    rw [dqLoop]
    by_cases hc : (appearsInBoth allBouts b.principle_fighter
        && appearsInBoth allBouts b.opponent_fighter) = true
    · rw [if_pos hc]
      by_cases hrev : (allBouts.any fun r2 =>
          r2.principle_fighter = b.opponent_fighter
            && r2.opponent_fighter = b.principle_fighter) = true
      · rw [if_pos hrev]
        rw [ih]
        constructor
        · intro h b2 hb2 hcond
          cases List.mem_cons.mp hb2 with
          | inl heq => subst heq; exact hrev
          | inr hmem => exact h b2 hmem hcond
        · intro h b2 hb2 hcond
          exact h b2 (List.mem_cons_of_mem b hb2) hcond
      · rw [if_neg hrev]
        constructor
        · intro h; exact Except.noConfusion h
        · intro h; exact absurd (h b (by simp) hc) hrev
    · rw [if_neg hc]
      rw [ih]
      constructor
      · intro h b2 hb2 hcond
        cases List.mem_cons.mp hb2 with
        | inl heq => subst heq; exact absurd hcond hc
        | inr hmem => exact h b2 hmem hcond
      · intro h b2 hb2 hcond
        exact h b2 (List.mem_cons_of_mem b hb2) hcond

/-- C2 counterexample: with tracked entities `{A, B}` and only the single
record `(A, B, WIN)`, the reciprocity check passes (it does not fail as
the claim requires): `principals ∩ opponents = ∅`, so no record is ever
checked. -/
theorem c2_counterexample :
    data_quality_checks [⟨"A", "B", "W", ⟨2024, 1, 1⟩⟩] = .ok () := rfl

/-- C2 amended: a record `(P, O)` is checked for a reverse record only
when both `P` and `O` appear somewhere as a principal AND somewhere as an
opponent in the collection; the check passes iff every such record has its
reverse `(O, P)` record.  In particular the single record `(A, B, WIN)`
passes, since `B` never appears as a principal (nor `A` as an opponent). -/
theorem c2_reciprocity_amended (bouts : List BoutRecord) :
    data_quality_checks bouts = .ok () ↔
      ∀ b ∈ bouts,
        (appearsInBoth bouts b.principle_fighter
          && appearsInBoth bouts b.opponent_fighter) = true →
        (bouts.any fun r2 =>
          r2.principle_fighter = b.opponent_fighter
            && r2.opponent_fighter = b.principle_fighter) = true :=
  dqLoop_ok_iff bouts bouts

/-- Witness for the amended C2: adding the reverse record `(B, A, LOSS)`
makes the check pass, and a genuinely one-sided pair among checked
entities makes it fail. -/
theorem c2_reciprocity_amended_witness :
    data_quality_checks [⟨"A", "B", "W", ⟨2024, 1, 1⟩⟩, ⟨"B", "A", "L", ⟨2024, 1, 1⟩⟩] = .ok ()
    ∧ data_quality_checks
        [⟨"A", "B", "W", ⟨2024, 1, 1⟩⟩, ⟨"B", "A", "L", ⟨2024, 1, 1⟩⟩,
         ⟨"A", "C", "W", ⟨2024, 1, 1⟩⟩, ⟨"C", "D", "W", ⟨2024, 1, 1⟩⟩,
         ⟨"D", "C", "L", ⟨2024, 1, 1⟩⟩] ≠ .ok () := by
  constructor
  · exact (c2_reciprocity_amended _).mpr (by decide)
  · intro hcontra
    have h := (c2_reciprocity_amended _).mp hcontra ⟨"A", "C", "W", ⟨2024, 1, 1⟩⟩
      (by decide) (by decide)
    exact absurd h (by decide)

/-! ## Theorems about the all-fighters driver -/

/-- C10 counterexample: a fighter row whose `fighter_url` cell holds float
NaN is not silently skipped: `bool(nan)` is `True` in Python, so the fetch
path runs and `urljoin(base, nan)` raises `TypeError`, aborting the run —
not the claimed no-fetch, no-error skip. -/
theorem c10_counterexample :
    scrape_all_fighter_bout_data [] c10Pages [⟨"X", .nanV⟩]
      = .error .typeErrorMixedStr := rfl

/-- C10 amended: in the driver loop an entity whose `fighter_url` cell is
falsy — `None` (missing) or the empty string — is silently skipped and
contributes nothing; a NaN cell is truthy, is not skipped, and aborts the
loop with the `urljoin` `TypeError`. -/
theorem c10_skip_amended (tracked : List TrackedFighter) (pages : String → List BoutRow)
    (f : FighterRow) (fs : List FighterRow) :
    (pyTruthy f.fighter_url = false →
      allFightersLoop tracked pages (f :: fs) = allFightersLoop tracked pages fs)
    ∧ (f.fighter_url = .nanV →
      allFightersLoop tracked pages (f :: fs) = .error .typeErrorMixedStr)
    ∧ pyTruthy .noneV = false ∧ pyTruthy (.strV "") = false ∧ pyTruthy .nanV = true := by
  refine ⟨?_, ?_, rfl, rfl, rfl⟩
  · intro h
    rw [allFightersLoop, if_neg (by simp [h])]
  · intro h
    simp [allFightersLoop, h, pyTruthy]

/-- Witness for the amended C10: a `None` locator is skipped yielding the
empty result, a NaN locator aborts with `TypeError`. -/
theorem c10_skip_amended_witness :
    allFightersLoop [] c10Pages [⟨"X", .noneV⟩] = .ok []
    ∧ allFightersLoop [] c10Pages [⟨"Y", .nanV⟩] = .error .typeErrorMixedStr := by
  constructor
  · rw [(c10_skip_amended [] c10Pages ⟨"X", PyCell.noneV⟩ []).1 rfl]
    rfl
  · exact (c10_skip_amended [] c10Pages ⟨"Y", PyCell.nanV⟩ []).2.1 rfl

/-! ## Lemmas about the identity resolver -/

theorem resolveFighter_name (searchWeb : String → SearchPage) (name : String)
    (r : UrlRecord) (h : resolveFighter searchWeb name = .ok r) :
    r.fighter_name = name := by
  unfold resolveFighter at h
  cases hrt : (searchWeb name).results_table with
  | none => simp only [hrt] at h; exact Except.noConfusion h
  | some anchors =>
    simp only [hrt] at h
    cases hl : (anchors.filter (fun a => containsSub "/fightcenter/fighters/" a.href)).head? with
    | none => simp only [hl] at h; exact Except.noConfusion h
    | some firstResult =>
      simp only [hl] at h
      by_cases hh : firstResult.href = ""
      · rw [if_pos hh] at h; exact Except.noConfusion h
      · rw [if_neg hh] at h
        injection h with h2
        rw [← h2]

theorem urlLoop_names (searchWeb : String → SearchPage) (cache : List UrlRecord) :
    ∀ (fighters : List String) (records : List UrlRecord) (k : Nat),
      urlLoop searchWeb cache fighters = .ok (records, k) →
      ∀ r ∈ records, r.fighter_name ∈ fighters := by
  intro fighters
  induction fighters with
  | nil =>
    intro records k h r hr
    rw [urlLoop] at h
    simp only [Except.ok.injEq, Prod.mk.injEq] at h
    rw [← h.1] at hr
    exact absurd hr (List.not_mem_nil r)
  | cons name rest ih =>
    intro records k h r hr
    rw [urlLoop] at h
    cases hfind : cache.find? (fun r2 => r2.fighter_name = name) with
    | some hit =>
      simp only [hfind] at h
      cases hrec : urlLoop searchWeb cache rest with
      | error e => simp only [hrec] at h; exact Except.noConfusion h
      | ok mc =>
        obtain ⟨more, calls⟩ := mc
        simp only [hrec, Except.ok.injEq, Prod.mk.injEq] at h
        rw [← h.1] at hr
        cases List.mem_cons.mp hr with
        | inl heq => subst heq; simp
        | inr hmem => exact List.mem_cons_of_mem name (ih more calls hrec r hmem)
    | none =>
      simp only [hfind] at h
      cases hres : resolveFighter searchWeb name with
      | error e => simp only [hres] at h; exact Except.noConfusion h
      | ok r0 =>
        simp only [hres] at h
        cases hrec : urlLoop searchWeb cache rest with
        | error e => simp only [hrec] at h; exact Except.noConfusion h
        | ok mc =>
          obtain ⟨more, calls⟩ := mc
          simp only [hrec, Except.ok.injEq, Prod.mk.injEq] at h
          rw [← h.1] at hr
          cases List.mem_cons.mp hr with
          | inl heq =>
            subst heq
            rw [resolveFighter_name searchWeb name r hres]
            simp
          | inr hmem => exact List.mem_cons_of_mem name (ih more calls hrec r hmem)

/-- C5 counterexample: the same name occurring twice in one run, starting
from an empty cache, issues two live search calls — the in-memory list of
new resolutions is never consulted as a cache, so the second occurrence
misses again. -/
theorem c5_counterexample :
    get_url_data sharedSearchWeb [] ["A", "A"]
      = .ok ⟨[⟨"A", "/fightcenter/fighters/a1"⟩, ⟨"A", "/fightcenter/fighters/a1"⟩],
             [⟨"A", "/fightcenter/fighters/a1"⟩, ⟨"A", "/fightcenter/fighters/a1"⟩], 2⟩ := rfl

/-- C5 amended: resolving a name found in the loaded (persisted) cache
issues no live call and returns the cached locator; hence across two runs
— a fresh resolution persisted, then re-resolved from the persisted cache
— exactly one live call is issued in total and the second resolution
equals the first.  (Within a single run, duplicate occurrences of an
uncached name each issue their own live call, per the counterexample.) -/
theorem c5_cache_idempotence_amended :
    (∀ (web : String → SearchPage) (cache : List UrlRecord) (name : String)
      (hit : UrlRecord),
      cache.find? (fun r => r.fighter_name = name) = some hit →
      get_url_data web cache [name]
        = .ok ⟨[⟨name, hit.fighter_url⟩], [⟨name, hit.fighter_url⟩], 0⟩)
    ∧ (∀ (web : String → SearchPage) (name : String) (res : UrlDataResult),
      get_url_data web [] [name] = .ok res →
      res.live_calls = 1
        ∧ get_url_data web res.persisted_cache [name]
            = .ok ⟨res.url_data, res.url_data, 0⟩) := by
  constructor
  · intro web cache name hit hfind
    unfold get_url_data
    rw [urlLoop, hfind]
    rfl
  · intro web name res h
    unfold get_url_data at h
    rw [urlLoop] at h
    cases hres : resolveFighter web name with
    | error e => simp only [List.find?_nil, hres] at h; exact Except.noConfusion h
    | ok r0 =>
      simp only [List.find?_nil, hres] at h
      simp only [urlLoop, Except.ok.injEq] at h
      obtain ⟨rn, ru⟩ := r0
      have hname : rn = name := resolveFighter_name web name ⟨rn, ru⟩ hres
      subst hname
      rw [← h]
      refine ⟨rfl, ?_⟩
      unfold get_url_data
      rw [urlLoop]
      simp [List.find?_cons, urlLoop]

/-- Witness for the amended C5: a cached name resolves with zero live
calls to the cached locator; a fresh resolution followed by a re-run from
the persisted cache makes one live call in total. -/
theorem c5_cache_idempotence_amended_witness :
    get_url_data sharedSearchWeb [⟨"A", "/fightcenter/fighters/cached"⟩] ["A"]
      = .ok ⟨[⟨"A", "/fightcenter/fighters/cached"⟩],
             [⟨"A", "/fightcenter/fighters/cached"⟩], 0⟩
    ∧ (⟨[⟨"A", "/fightcenter/fighters/a1"⟩], [⟨"A", "/fightcenter/fighters/a1"⟩], 1⟩
          : UrlDataResult).live_calls = 1
    ∧ get_url_data sharedSearchWeb [⟨"A", "/fightcenter/fighters/a1"⟩] ["A"]
      = .ok ⟨[⟨"A", "/fightcenter/fighters/a1"⟩], [⟨"A", "/fightcenter/fighters/a1"⟩], 0⟩ := by
  obtain ⟨p1, p2⟩ := c5_cache_idempotence_amended
  obtain ⟨q1, q2⟩ := p2 sharedSearchWeb "A"
    ⟨[⟨"A", "/fightcenter/fighters/a1"⟩], [⟨"A", "/fightcenter/fighters/a1"⟩], 1⟩ rfl
  exact ⟨p1 sharedSearchWeb [⟨"A", "/fightcenter/fighters/cached"⟩] "A"
    ⟨"A", "/fightcenter/fighters/cached"⟩ rfl, q1, q2⟩

/-- C6 counterexample: the persisted cache after a run that processed only
entity `A` consists of this run's records alone; the previous cache's
entry for `B` is gone (the file is rewritten from `url_data`, not merged). -/
theorem c6_counterexample :
    get_url_data sharedSearchWeb c6OldCache ["A"]
      = .ok ⟨[⟨"A", "/fightcenter/fighters/a1"⟩], [⟨"A", "/fightcenter/fighters/a1"⟩], 1⟩
    ∧ (⟨"B", "/fightcenter/fighters/b"⟩ : UrlRecord) ∉
        ([⟨"A", "/fightcenter/fighters/a1"⟩] : List UrlRecord) := by
  exact ⟨rfl, by decide⟩

/-- C6 amended: when the resolver returns, the persisted cache equals this
run's `url_data` exactly — one record per processed name (cache hits
re-emitted plus fresh resolutions) — and every persisted record's name is
one of the names processed this run; entries of the previous cache for
names not processed are dropped, not preserved. -/
theorem c6_persisted_cache_amended (web : String → SearchPage) (cache : List UrlRecord)
    (fighters : List String) (res : UrlDataResult)
    (h : get_url_data web cache fighters = .ok res) :
    res.persisted_cache = res.url_data
    ∧ ∀ r ∈ res.persisted_cache, r.fighter_name ∈ fighters := by
  unfold get_url_data at h
  cases hloop : urlLoop web cache fighters with
  | error e => rw [hloop] at h; exact Except.noConfusion h
  | ok uc =>
    obtain ⟨url_data, calls⟩ := uc
    rw [hloop] at h
    injection h with h2
    rw [← h2]
    exact ⟨rfl, urlLoop_names web cache fighters url_data calls hloop⟩

/-- Witness for the amended C6 at the counterexample run: the persisted
cache equals the run's `url_data`, and its single record's name was
processed this run. -/
theorem c6_persisted_cache_amended_witness :
    (⟨[⟨"A", "/fightcenter/fighters/a1"⟩], [⟨"A", "/fightcenter/fighters/a1"⟩], 1⟩
        : UrlDataResult).persisted_cache
      = (⟨[⟨"A", "/fightcenter/fighters/a1"⟩], [⟨"A", "/fightcenter/fighters/a1"⟩], 1⟩
        : UrlDataResult).url_data
    ∧ (⟨"A", "/fightcenter/fighters/a1"⟩ : UrlRecord).fighter_name ∈ ["A"] := by
  have h := c6_persisted_cache_amended sharedSearchWeb c6OldCache ["A"]
    ⟨[⟨"A", "/fightcenter/fighters/a1"⟩], [⟨"A", "/fightcenter/fighters/a1"⟩], 1⟩ rfl
  exact ⟨h.1, h.2 ⟨"A", "/fightcenter/fighters/a1"⟩ (by simp)⟩

end MmaWeb
